import Mathlib

/-!
Shallow embedding of the zfactor cubic equation-of-state core
(solve_cubic.go and the cubic package: SolveForVolume, Pressure,
LogFugacity, SaturationPressure), with Go float64 arithmetic modelled by
exact real arithmetic and complex128 by the complex numbers.  Errors are
modelled by an explicit error type and the Except monad.
-/

namespace ZFactor

/-- Error kinds of the library: the four validation errors of errors.go used
by the cubic package, the not-cubic error of SolveCubic, and the two
saturation-loop errors of SaturationPressure. -/
inductive Err
  | tempErr
  | pressErr
  | criticalPropErr
  | universalConstErr
  | notCubicErr
  | noRealRootsErr
  | notConvergedErr
  deriving DecidableEq

/-- Real cube root, modelling Go math.Cbrt (odd extension of the positive
cube root). -/
noncomputable def cbrt (x : ℝ) : ℝ :=
  if 0 ≤ x then x ^ ((1 : ℝ) / 3) else -((-x) ^ ((1 : ℝ) / 3))

/-- SolveCubic solves a x^3 + b x^2 + c x + d = 0, modelling solve_cubic.go
line by line.  cmplx.Pow(z, 1.0/3) is the principal complex power, modelled
by the complex cpow with exponent 1/3; math.Sqrt is the real square root;
the three returned roots are modelled as a triple. -/
noncomputable def SolveCubic (a b c d : ℝ) : Except Err (ℂ × ℂ × ℂ) :=
  if a = 0 then .error .notCubicErr
  else
    -- 1. Normalize coefficients
    let b' := b / a
    let c' := c / a
    let d' := d / a
    -- 2. Depressed cubic: y^3 + p y + q = 0
    let p := c' - b' * b' / 3
    let q := 2 * b' * b' * b' / 27 - b' * c' / 3 + d'
    -- 3. Discriminant
    let delta := q * q / 4 + p * p * p / 27
    -- 4. Cube roots of unity
    let om : ℂ := ⟨-0.5, Real.sqrt 3 / 2⟩
    let om2 : ℂ := ⟨-0.5, -(Real.sqrt 3 / 2)⟩
    if 0 ≤ delta then
      -- One real root and two complex (cmplx.Pow = principal complex power)
      let u : ℂ := (Complex.ofReal (-q / 2 + Real.sqrt delta)) ^ ((1 : ℂ) / 3)
      let v : ℂ := (Complex.ofReal (-q / 2 - Real.sqrt delta)) ^ ((1 : ℂ) / 3)
      let shift : ℂ := Complex.ofReal (b' / 3)
      .ok (u + v - shift, u * om + v * om2 - shift, u * om2 + v * om - shift)
    else
      -- Three real roots, trigonometric form
      let r := Real.sqrt (-p * p * p / 27)
      let phi := Real.arccos (-q / (2 * Real.sqrt (-(p * p * p) / 27)))
      let t := 2 * cbrt r
      let shift : ℂ := Complex.ofReal (b' / 3)
      .ok (Complex.ofReal (t * Real.cos (phi / 3)) - shift,
           Complex.ofReal (t * Real.cos ((phi + 2 * Real.pi) / 3)) - shift,
           Complex.ofReal (t * Real.cos ((phi + 4 * Real.pi) / 3)) - shift)

/-- Params represents the substance agnostic variables (sigma, epsilon,
Omega, Psi) of any cubic equation of state. -/
structure Params where
  Sigma : ℝ
  Epsilon : ℝ
  Omega : ℝ
  Psi : ℝ

/-- EOSModel is the closed set of cubic equation-of-state variants of the
cubic package: van der Waals, Redlich-Kwong, Soave-Redlich-Kwong and
Peng-Robinson (the Go EOSType interface has exactly these four
implementations). -/
inductive EOSModel
  | vdW
  | rk
  | srk
  | pr
  deriving DecidableEq

/-- Alpha functions of the four models (the Alpha methods of vdW, rk, srk
and pr in the Go source). -/
noncomputable def alphaOf : EOSModel → ℝ → ℝ → ℝ
  | .vdW, _, _ => 1.0
  | .rk, tr, _ => 1 / Real.sqrt tr
  | .srk, tr, w =>
      let a := 0.480 + 1.574 * w - 0.716 * w * w
      let b := 1 - Real.sqrt tr
      let c := 1 + a * b
      c * c
  | .pr, tr, w =>
      let a := 0.37464 + 1.54226 * w - 0.26992 * w * w
      let b := 1 - Real.sqrt tr
      let c := 1 + a * b
      c * c

/-- Shape parameters of the four models (the Params methods of vdW, rk, srk
and pr in the Go source). -/
noncomputable def paramsOf : EOSModel → Params
  | .vdW => ⟨0, 0, 1.0 / 8.0, 27.0 / 64.0⟩
  | .rk => ⟨1, 0, 0.08664, 0.42728⟩
  | .srk => ⟨1, 0, 0.08664, 0.42728⟩
  | .pr => ⟨1 + Real.sqrt 2, 1 - Real.sqrt 2, 0.07780, 0.45724⟩

/-- EOSCfg holds the configuration for an equation-of-state calculation
(the Go field Type is called Model here, Type being reserved in Lean). -/
structure EOSCfg where
  Model : EOSModel
  T : ℝ
  P : ℝ
  Tc : ℝ
  Pc : ℝ
  Acentric : ℝ
  R : ℝ

/-- NewvdWCfg creates a van der Waals configuration. -/
noncomputable def NewvdWCfg (T P Tc Pc R : ℝ) : EOSCfg := ⟨.vdW, T, P, Tc, Pc, 0, R⟩

/-- NewRKCfg creates a Redlich-Kwong configuration. -/
noncomputable def NewRKCfg (T P Tc Pc R : ℝ) : EOSCfg := ⟨.rk, T, P, Tc, Pc, 0, R⟩

/-- NewSRKCfg creates a Soave-Redlich-Kwong configuration. -/
noncomputable def NewSRKCfg (T P Tc Pc W R : ℝ) : EOSCfg := ⟨.srk, T, P, Tc, Pc, W, R⟩

/-- NewPRCfg creates a Peng-Robinson configuration. -/
noncomputable def NewPRCfg (T P Tc Pc W R : ℝ) : EOSCfg := ⟨.pr, T, P, Tc, Pc, W, R⟩

/-- VolumeResult contains the parameters a and b and the three roots of the
cubic volume equation. -/
structure VolumeResult where
  A : ℝ
  B : ℝ
  Volumes : ℂ × ℂ × ℂ

/-- Filtering pass of VolumeResult.Clean: keep the real parts of the roots
whose imaginary part is below 1e-9 in absolute value, in order. -/
noncomputable def cleanFilter : List ℂ → List ℝ
  | [] => []
  | z :: zs => if |z.im| < 1e-9 then z.re :: cleanFilter zs else cleanFilter zs

/-- Clean returns the near-real roots sorted in ascending order (the Go
method filters with tolerance 1e-9 and then calls slices.Sort, modelled by
insertion sort). -/
noncomputable def VolumeResult.Clean (vr : VolumeResult) : List ℝ :=
  List.insertionSort (· ≤ ·) (cleanFilter [vr.Volumes.1, vr.Volumes.2.1, vr.Volumes.2.2])

/-- PressureResult contains the calculated pressure and the parameters a
and b. -/
structure PressureResult where
  A : ℝ
  B : ℝ
  P : ℝ

/-- calculateb calculates the b parameter. -/
noncomputable def calculateb (omega r tc pc : ℝ) : ℝ := omega * r * tc / pc

/-- calculatea calculates the a(T) parameter. -/
noncomputable def calculatea (psi alpha r tc pc : ℝ) : ℝ :=
  psi * alpha * r * r * tc * tc / pc

/-- The b parameter computed by SolveForVolume. -/
noncomputable def volB (cfg : EOSCfg) : ℝ :=
  calculateb (paramsOf cfg.Model).Omega cfg.R cfg.Tc cfg.Pc

/-- The a(T) parameter computed by SolveForVolume (alpha evaluated at
Tr = T/Tc and the acentric factor). -/
noncomputable def volA (cfg : EOSCfg) : ℝ :=
  calculatea (paramsOf cfg.Model).Psi
    (alphaOf cfg.Model (cfg.T / cfg.Tc) cfg.Acentric) cfg.R cfg.Tc cfg.Pc

/-- The quantity v_ig of SolveForVolume: the Go source computes
cfg.R * cfg.Tc / cfg.Pc (note: Tc and Pc, not T and P). -/
noncomputable def vIG (cfg : EOSCfg) : ℝ := cfg.R * cfg.Tc / cfg.Pc

/-- Coefficient f of the volume cubic e V^3 + f V^2 + g V + h = 0, with
x = epsilon + sigma as in the Go source. -/
noncomputable def coefF (cfg : EOSCfg) : ℝ :=
  volB cfg * (((paramsOf cfg.Model).Epsilon + (paramsOf cfg.Model).Sigma) - 1) - vIG cfg

/-- Coefficient g of the volume cubic, with x = epsilon + sigma and
y = epsilon * sigma as in the Go source. -/
noncomputable def coefG (cfg : EOSCfg) : ℝ :=
  volB cfg * (((paramsOf cfg.Model).Epsilon * (paramsOf cfg.Model).Sigma -
      ((paramsOf cfg.Model).Epsilon + (paramsOf cfg.Model).Sigma)) * volB cfg -
    (((paramsOf cfg.Model).Epsilon + (paramsOf cfg.Model).Sigma) * vIG cfg)) +
  volA cfg / cfg.P

/-- Coefficient h of the volume cubic, with y = epsilon * sigma as in the Go
source. -/
noncomputable def coefH (cfg : EOSCfg) : ℝ :=
  -((paramsOf cfg.Model).Epsilon * (paramsOf cfg.Model).Sigma) * volB cfg * volB cfg *
      (volB cfg + vIG cfg) -
    volA cfg * volB cfg / cfg.P

/-- SolveForVolume validates the configuration (T, then P, then Pc or Tc,
then R), builds the volume cubic and delegates to SolveCubic with leading
coefficient e = 1; a SolveCubic error is wrapped, success returns
VolumeResult with a, b and the three roots. -/
noncomputable def SolveForVolume (cfg : EOSCfg) : Except Err VolumeResult :=
  if cfg.T ≤ 0 then .error .tempErr
  else if cfg.P ≤ 0 then .error .pressErr
  else if cfg.Pc ≤ 0 ∨ cfg.Tc ≤ 0 then .error .criticalPropErr
  else if cfg.R ≤ 0 then .error .universalConstErr
  else
    match SolveCubic 1 (coefF cfg) (coefG cfg) (coefH cfg) with
    | .error _ => .error .notCubicErr
    | .ok sol => .ok ⟨volA cfg, volB cfg, sol⟩

/-- Pressure calculates the pressure at a given molar volume: it validates
T, the critical properties and R (but neither cfg.P nor the volume), then
returns R T/(V - b) - a/((V + epsilon b)(V + sigma b)).  Division is the
total real division of the model, so V = b produces a value, not an
error, matching the Go code where the float division produces an infinity
that is propagated in the result. -/
noncomputable def Pressure (cfg : EOSCfg) (volume : ℝ) : Except Err PressureResult :=
  if cfg.T ≤ 0 then .error .tempErr
  else if cfg.Pc ≤ 0 ∨ cfg.Tc ≤ 0 then .error .criticalPropErr
  else if cfg.R ≤ 0 then .error .universalConstErr
  else
    let a := volA cfg
    let b := volB cfg
    let v := volume
    let first := cfg.R * cfg.T / (v - b)
    let second := a / ((v + (paramsOf cfg.Model).Epsilon * b) *
      (v + (paramsOf cfg.Model).Sigma * b))
    .ok ⟨a, b, first - second⟩

/-- LogFugacity calculates the natural logarithm of the fugacity
coefficient, modelling the Go function including its degenerate-case branch
on the difference epsilon - sigma. -/
noncomputable def LogFugacity (cfg : EOSCfg) (Z A B : ℝ) : ℝ :=
  let sigma := (paramsOf cfg.Model).Sigma
  let epsilon := (paramsOf cfg.Model).Epsilon
  let term1 := Z - 1 - Real.log (Z - B)
  let diff := epsilon - sigma
  let term2 :=
    if |diff| < 1e-9 then -A / Z
    else (A / (B * diff)) * Real.log ((Z + sigma * B) / (Z + epsilon * B))
  term1 + term2

/-- The working copy of the configuration built in each saturation
iteration: the caller configuration with T and P replaced. -/
noncomputable def iterCfgAt (cfg : EOSCfg) (T P : ℝ) : EOSCfg :=
  ⟨cfg.Model, T, P, cfg.Tc, cfg.Pc, cfg.Acentric, cfg.R⟩

/-- Dimensionless parameter A = a P/(R T)^2 of a saturation iteration. -/
noncomputable def satA (cfg : EOSCfg) (T P : ℝ) (vr : VolumeResult) : ℝ :=
  vr.A * P / ((cfg.R * T) * (cfg.R * T))

/-- Dimensionless parameter B = b P/(R T) of a saturation iteration. -/
noncomputable def satB (cfg : EOSCfg) (T P : ℝ) (vr : VolumeResult) : ℝ :=
  vr.B * P / (cfg.R * T)

/-- Liquid compressibility factor Zl = P Vl/(R T) of a saturation
iteration (Vl is the smallest clean root). -/
noncomputable def satZl (cfg : EOSCfg) (T P : ℝ) (vr : VolumeResult) : ℝ :=
  P * vr.Clean.head! / (cfg.R * T)

/-- Vapor compressibility factor Zv = P Vv/(R T) of a saturation iteration
(Vv is the largest clean root). -/
noncomputable def satZv (cfg : EOSCfg) (T P : ℝ) (vr : VolumeResult) : ℝ :=
  P * vr.Clean.getLast! / (cfg.R * T)

/-- Liquid-phase log-fugacity of a saturation iteration. -/
noncomputable def satPhil (cfg : EOSCfg) (T P : ℝ) (vr : VolumeResult) : ℝ :=
  LogFugacity (iterCfgAt cfg T P) (satZl cfg T P vr) (satA cfg T P vr) (satB cfg T P vr)

/-- Vapor-phase log-fugacity of a saturation iteration. -/
noncomputable def satPhiv (cfg : EOSCfg) (T P : ℝ) (vr : VolumeResult) : ℝ :=
  LogFugacity (iterCfgAt cfg T P) (satZv cfg T P vr) (satA cfg T P vr) (satB cfg T P vr)

/-- Outcome of one iteration of the SaturationPressure loop: an error
return, a converged return of the current trial pressure, or continuation
with an updated trial pressure. -/
inductive StepRes
  | fail (e : Err)
  | done (p : ℝ)
  | cont (p : ℝ)

/-- One iteration of the SaturationPressure loop body at trial pressure P,
modelling the Go loop line by line: solve for volume on the working copy,
take the clean roots; with fewer than three roots fail on zero roots or
nudge P by 0.9 or 1.1 according to the smallest root against 2 b; with
three roots compute the dimensionless quantities, perturb by 0.95 when a
compressibility factor does not exceed B, return P on fugacity match below
1e-8, and otherwise damp the update factor into the band 0.8 to 1.2. -/
noncomputable def satStep (cfg : EOSCfg) (T P : ℝ) : StepRes :=
  match SolveForVolume (iterCfgAt cfg T P) with
  | .error e => .fail e
  | .ok volRes =>
    if volRes.Clean.length < 3 then
      if volRes.Clean.length = 0 then .fail .noRealRootsErr
      else
        if volRes.Clean.head! < 2 * volRes.B then .cont (P * 0.9) else .cont (P * 1.1)
    else
      if satZl cfg T P volRes ≤ satB cfg T P volRes ∨
          satZv cfg T P volRes ≤ satB cfg T P volRes then .cont (P * 0.95)
      else
        if |satPhil cfg T P volRes - satPhiv cfg T P volRes| < 1e-8 then .done P
        else
          .cont (P * (if Real.exp (satPhil cfg T P volRes - satPhiv cfg T P volRes) > 1.2
            then 1.2
            else if Real.exp (satPhil cfg T P volRes - satPhiv cfg T P volRes) < 0.8
              then 0.8
              else Real.exp (satPhil cfg T P volRes - satPhiv cfg T P volRes)))

/-- The bounded saturation loop with the given remaining iteration budget;
an exhausted budget is the did-not-converge error of the Go code. -/
noncomputable def satLoop (cfg : EOSCfg) (T : ℝ) : ℕ → ℝ → Except Err ℝ
  | 0, _ => .error .notConvergedErr
  | n + 1, P =>
    match satStep cfg T P with
    | .fail e => .error e
    | .done p => .ok p
    | .cont p => satLoop cfg T n p

/-- Trial pressure reached after k continuing iterations (none if the loop
would have returned earlier); a specification helper used to state which
states the loop visits. -/
noncomputable def satIter (cfg : EOSCfg) (T : ℝ) : ℕ → ℝ → Option ℝ
  | 0, P => some P
  | k + 1, P =>
    match satStep cfg T P with
    | .cont p => satIter cfg T k p
    | _ => none

/-- Initial trial pressure of SaturationPressure, the Wilson equation with
Tr = T/Tc. -/
noncomputable def wilsonGuess (cfg : EOSCfg) (T : ℝ) : ℝ :=
  cfg.Pc * Real.exp (5.373 * (1 + cfg.Acentric) * (1 - 1 / (T / cfg.Tc)))

/-- SaturationPressure: for T at or above Tc return Pc directly; otherwise
run up to 100 iterations of the equal-fugacity loop from the Wilson
guess. -/
noncomputable def SaturationPressure (cfg : EOSCfg) (T : ℝ) : Except Err ℝ :=
  if cfg.Tc ≤ T then .ok cfg.Pc
  else satLoop cfg T 100 (wilsonGuess cfg T)

/-- Residual of the cubic a x^3 + b x^2 + c x + d at a complex point, used
to state the root property of SolveCubic. -/
noncomputable def cubicResidual (a b c d : ℝ) (r : ℂ) : ℂ :=
  (a : ℂ) * r ^ 3 + (b : ℂ) * r ^ 2 + (c : ℂ) * r + (d : ℂ)

/-- Concrete van der Waals configuration T = 2, P = 1, Tc = 8, Pc = 1,
R = 1 whose volume cubic is (V - 3)^3. -/
noncomputable def cfgTriple : EOSCfg := ⟨.vdW, 2, 1, 8, 1, 0, 1⟩

/-- Concrete van der Waals configuration T = 3, P = 81/49, Tc = 6, Pc = 1,
R = 1 whose volume cubic has exactly one real root. -/
noncomputable def cfgOneRoot : EOSCfg := ⟨.vdW, 3, 81 / 49, 6, 1, 0, 1⟩

/-- Configuration with a negative critical temperature, used to probe the
validation behaviour of SaturationPressure. -/
noncomputable def cfgNoValid : EOSCfg := ⟨.vdW, 1, 1, -2, 5, 0, 1⟩

/-- Configuration with nonpositive temperature. -/
noncomputable def cfgTBad : EOSCfg := ⟨.vdW, -1, 1, 1, 1, 0, 1⟩

/-- Configuration with nonpositive pressure. -/
noncomputable def cfgPBad : EOSCfg := ⟨.vdW, 1, -1, 1, 1, 0, 1⟩

/-- Configuration with nonpositive critical temperature. -/
noncomputable def cfgTcBad : EOSCfg := ⟨.vdW, 1, 1, -1, 1, 0, 1⟩

/-- Configuration with nonpositive critical pressure. -/
noncomputable def cfgPcBad : EOSCfg := ⟨.vdW, 1, 1, 1, -1, 0, 1⟩

/-- Configuration with nonpositive gas constant. -/
noncomputable def cfgRBad : EOSCfg := ⟨.vdW, 1, 1, 1, 1, 0, -1⟩

/-- Square roots evaluate by exhibiting the square. -/
theorem sqrt_eval {a b : ℝ} (hb : 0 ≤ b) (h : b ^ 2 = a) : Real.sqrt a = b := by
  rw [← h, Real.sqrt_sq hb]

/-- The principal complex cube root of a nonnegative real is the real cube
root. -/
theorem cpow_third_ofReal_nonneg {x : ℝ} (hx : 0 ≤ x) :
    (Complex.ofReal x) ^ ((1 : ℂ) / 3) = Complex.ofReal (x ^ ((1 : ℝ) / 3)) := by
  have h := Complex.ofReal_cpow hx ((1 : ℝ) / 3)
  have he : ((((1 : ℝ) / 3 : ℝ)) : ℂ) = (1 : ℂ) / 3 := by push_cast; ring
  rw [he] at h
  exact h.symm

/-- The principal complex cube root of a negative real lies on the ray of
argument pi/3: it is the real cube root of the absolute value times
(1/2, sqrt 3/2).  This is the crux of the SolveCubic defect: cmplx.Pow
does not produce the real (negative) cube root. -/
theorem cpow_third_ofReal_neg {x : ℝ} (hx : 0 < x) :
    (Complex.ofReal (-x)) ^ ((1 : ℂ) / 3) =
      Complex.ofReal (x ^ ((1 : ℝ) / 3)) * ⟨1 / 2, Real.sqrt 3 / 2⟩ := by
  have hne : Complex.ofReal (-x) ≠ 0 := by
    simp only [ne_eq, Complex.ofReal_eq_zero]
    intro hc
    linarith
  rw [Complex.cpow_def_of_ne_zero hne]
  have hlog : Complex.log (Complex.ofReal (-x)) =
      Complex.ofReal (Real.log x) + Complex.ofReal Real.pi * Complex.I := by
    apply Complex.ext
    · simp [Complex.log_re, Complex.abs_ofReal, abs_neg, abs_of_pos hx]
    · simp only [Complex.log_im, Complex.add_im, Complex.ofReal_im, Complex.mul_im,
        Complex.I_im, Complex.I_re, Complex.ofReal_re]
      rw [Complex.arg_ofReal_of_neg (by linarith : -x < 0)]
      ring
  rw [hlog]
  have hmul : (Complex.ofReal (Real.log x) + Complex.ofReal Real.pi * Complex.I) *
      ((1 : ℂ) / 3) =
      Complex.ofReal (Real.log x / 3) + Complex.ofReal (Real.pi / 3) * Complex.I := by
    push_cast
    ring
  rw [hmul, Complex.exp_add_mul_I, ← Complex.ofReal_exp, ← Complex.ofReal_cos,
    ← Complex.ofReal_sin, Real.cos_pi_div_three, Real.sin_pi_div_three]
  have hexp : Real.exp (Real.log x / 3) = x ^ ((1 : ℝ) / 3) := by
    rw [Real.rpow_def_of_pos hx]
    ring_nf
  rw [hexp]
  congr 1
  apply Complex.ext <;> simp

/-- Cube roots of perfect cubes evaluate. -/
theorem rpow_third_cube {c : ℝ} (hc : 0 ≤ c) : (c ^ (3 : ℕ)) ^ ((1 : ℝ) / 3) = c := by
  rw [show (1 : ℝ) / 3 = (((3 : ℕ) : ℝ))⁻¹ by norm_num]
  exact Real.pow_rpow_inv_natCast hc (by norm_num)

/-- The real cube root of the inverse of sqrt 27. -/
theorem inv_sqrt27_rpow : ((Real.sqrt 27)⁻¹ : ℝ) ^ ((1 : ℝ) / 3) = Real.sqrt 3 / 3 := by
  have h3 : Real.sqrt 3 * Real.sqrt 3 = 3 := Real.mul_self_sqrt (by norm_num)
  have h27 : Real.sqrt 27 = 3 * Real.sqrt 3 := by
    apply sqrt_eval (by positivity)
    rw [mul_pow, Real.sq_sqrt (by norm_num : (0 : ℝ) ≤ 3)]
    norm_num
  have hinv : (Real.sqrt 27)⁻¹ = Real.sqrt 3 / 9 := by
    rw [h27]
    refine inv_eq_of_mul_eq_one_right ?_
    linear_combination (1 / 3 : ℝ) * h3
  have hcube : Real.sqrt 3 / 9 = (Real.sqrt 3 / 3) ^ (3 : ℕ) := by
    have ht : (Real.sqrt 3) ^ (3 : ℕ) = 3 * Real.sqrt 3 := by
      rw [pow_succ, Real.sq_sqrt (by norm_num : (0 : ℝ) ≤ 3)]
    rw [div_pow, ht]
    ring
  rw [hinv, hcube, rpow_third_cube (by positivity)]

/-- Evaluation of the principal cube root term u of SolveCubic 1 0 1 0. -/
theorem u_val_dep : ((Real.sqrt 27 : ℝ) : ℂ)⁻¹ ^ ((1 : ℂ) / 3) =
    ((Real.sqrt 3 / 3 : ℝ) : ℂ) := by
  rw [← Complex.ofReal_inv, cpow_third_ofReal_nonneg (by positivity), inv_sqrt27_rpow]

/-- Evaluation of the principal cube root term v of SolveCubic 1 0 1 0. -/
theorem v_val_dep : (-((Real.sqrt 27 : ℝ) : ℂ)⁻¹) ^ ((1 : ℂ) / 3) =
    ((Real.sqrt 3 / 3 : ℝ) : ℂ) * ⟨1 / 2, Real.sqrt 3 / 2⟩ := by
  rw [← Complex.ofReal_inv, ← Complex.ofReal_neg,
    cpow_third_ofReal_neg (by positivity), inv_sqrt27_rpow]

/-- Full evaluation of SolveCubic on the depressed cubic x^3 + x: the code
returns (sqrt 3/2 + i/2, 0, -sqrt 3/2 - i/2), of which the first and third
are not roots of the polynomial. -/
theorem solveCubic_depressed_eval :
    SolveCubic 1 0 1 0 = .ok (⟨Real.sqrt 3 / 2, 1 / 2⟩, 0,
      ⟨-(Real.sqrt 3 / 2), -(1 / 2)⟩) := by
  have h3 : Real.sqrt 3 * Real.sqrt 3 = 3 := Real.mul_self_sqrt (by norm_num)
  unfold SolveCubic
  rw [if_neg (one_ne_zero : ¬((1 : ℝ) = 0))]
  norm_num [u_val_dep, v_val_dep]
  refine ⟨?_, ?_, ?_⟩ <;> apply Complex.ext <;>
    simp [Complex.mul_re, Complex.mul_im] <;> ring_nf
  · linear_combination (1 / 6 : ℝ) * h3
  · linear_combination (Real.sqrt 3 / 12) * h3
  · linear_combination (-(Real.sqrt 3) / 12) * h3
  · linear_combination (-1 / 6 : ℝ) * h3

/-- Residual of the cubic x^3 + x at the first value SolveCubic returns
for it. -/
theorem residual_dep : cubicResidual 1 0 1 0 ⟨Real.sqrt 3 / 2, 1 / 2⟩ =
    ⟨Real.sqrt 3 / 2, 3 / 2⟩ := by
  have h3 : Real.sqrt 3 * Real.sqrt 3 = 3 := Real.mul_self_sqrt (by norm_num)
  unfold cubicResidual
  apply Complex.ext <;>
    simp [pow_succ, Complex.mul_re, Complex.mul_im] <;> ring_nf
  · linear_combination (Real.sqrt 3 / 8) * h3
  · linear_combination (3 / 8 : ℝ) * h3

/-- Claim C1 (evaluation at the failing input): on the cubic x^3 + x = 0
with coefficients (1, 0, 1, 0) the code takes the discriminant-nonnegative
branch with a negative radicand -q/2 - sqrt Delta = -sqrt(1/27); cmplx.Pow
returns the principal complex cube root rather than the real cube root, so
the first returned root is sqrt 3/2 + i/2, whose residual in the cubic is
sqrt 3/2 + (3/2) i, of magnitude far beyond the 1e-6 tolerance the claim
asserts for every returned root. -/
theorem solveCubic_principal_cbrt_bug :
    SolveCubic 1 0 1 0 = .ok (⟨Real.sqrt 3 / 2, 1 / 2⟩, 0,
      ⟨-(Real.sqrt 3 / 2), -(1 / 2)⟩) ∧
    1e-6 < Complex.abs (cubicResidual 1 0 1 0 ⟨Real.sqrt 3 / 2, 1 / 2⟩) := by
  refine ⟨solveCubic_depressed_eval, ?_⟩
  rw [residual_dep]
  calc (1e-6 : ℝ) < 3 / 2 := by norm_num
    _ = |(⟨Real.sqrt 3 / 2, 3 / 2⟩ : ℂ).im| := by
      rw [show (⟨Real.sqrt 3 / 2, 3 / 2⟩ : ℂ).im = 3 / 2 from rfl,
        abs_of_pos (by norm_num : (0 : ℝ) < 3 / 2)]
    _ ≤ Complex.abs ⟨Real.sqrt 3 / 2, 3 / 2⟩ := Complex.abs_im_le_abs _

/-- Evaluation of SolveCubic on the perfect cube (V - 3)^3. -/
theorem solveCubic_triple_eval : SolveCubic 1 (-9) 27 (-27) = .ok (3, 3, 3) := by
  unfold SolveCubic
  rw [if_neg (one_ne_zero : ¬((1 : ℝ) = 0))]
  have hz : ((0 : ℂ)) ^ ((1 : ℂ) / 3) = 0 := Complex.zero_cpow (by norm_num)
  norm_num [hz]

/-- Coefficient evaluation for the configuration cfgTriple. -/
theorem cfgTriple_coefs : volA cfgTriple = 27 ∧ volB cfgTriple = 1 ∧
    coefF cfgTriple = -9 ∧ coefG cfgTriple = 27 ∧ coefH cfgTriple = -27 := by
  refine ⟨?_, ?_, ?_, ?_, ?_⟩ <;>
    norm_num [volA, volB, coefF, coefG, coefH, vIG, calculatea, calculateb,
      alphaOf, paramsOf, cfgTriple]

/-- SolveForVolume on cfgTriple returns a = 27, b = 1 and the triple root
V = 3. -/
theorem solveForVolume_cfgTriple :
    SolveForVolume cfgTriple = .ok ⟨27, 1, (3, 3, 3)⟩ := by
  obtain ⟨hA, hB, hF, hG, hH⟩ := cfgTriple_coefs
  unfold SolveForVolume
  rw [if_neg (by norm_num [cfgTriple]), if_neg (by norm_num [cfgTriple]),
    if_neg (by norm_num [cfgTriple]), if_neg (by norm_num [cfgTriple]),
    hF, hG, hH, solveCubic_triple_eval, hA, hB]

/-- The cleaned root list of the triple-root volume result is [3, 3, 3]. -/
theorem clean_cfgTriple : (VolumeResult.mk 27 1 (3, 3, 3)).Clean = [3, 3, 3] := by
  unfold VolumeResult.Clean
  norm_num [cleanFilter, List.insertionSort, List.orderedInsert]

/-- Pressure of cfgTriple at the volume V = 3 evaluates to -2. -/
theorem pressure_cfgTriple : Pressure cfgTriple 3 = .ok ⟨27, 1, -2⟩ := by
  unfold Pressure
  rw [if_neg (by norm_num [cfgTriple]), if_neg (by norm_num [cfgTriple]),
    if_neg (by norm_num [cfgTriple])]
  norm_num [volA, volB, vIG, calculatea, calculateb, alphaOf, paramsOf, cfgTriple]

/-- Claim C2 (evaluation at the failing input): the volume solver builds
its cubic with Vig = R Tc/Pc instead of the ideal-gas volume R T/P, so its
roots do not satisfy the equation of state at the configured temperature
and pressure.  For the van der Waals configuration T = 2, P = 1, Tc = 8,
Pc = 1, R = 1 the solver returns the clean triple root V = 3, and the
pressure evaluator at V = 3 gives -2 instead of the configured pressure 1:
the round trip misses by 3, far beyond any numerical tolerance. -/
theorem volume_pressure_roundtrip_fails :
    SolveForVolume cfgTriple = .ok ⟨27, 1, (3, 3, 3)⟩ ∧
    (3 : ℝ) ∈ (VolumeResult.mk 27 1 (3, 3, 3)).Clean ∧
    Pressure cfgTriple 3 = .ok ⟨27, 1, -2⟩ ∧
    cfgTriple.P = 1 ∧ (1 : ℝ) < |(-2 : ℝ) - 1| := by
  refine ⟨solveForVolume_cfgTriple, ?_, pressure_cfgTriple, rfl, by norm_num⟩
  rw [clean_cfgTriple]
  simp

/-- Claim C3 counterexample: SaturationPressure performs no validation of
its own: on a configuration with negative critical temperature and at a
nonpositive temperature argument it still returns .ok Pc, although the
claim requires rejection of T at most 0 and Tc at most 0; moreover Tc and
Pc violations do not produce distinct error kinds in SolveForVolume: both
map to the one shared critical-property error. -/
theorem saturation_no_validation_cex :
    SaturationPressure cfgNoValid (-1) = .ok 5 ∧
    SolveForVolume cfgTcBad = .error .criticalPropErr ∧
    SolveForVolume cfgPcBad = .error .criticalPropErr := by
  refine ⟨?_, ?_, ?_⟩
  · unfold SaturationPressure
    rw [if_pos (by norm_num [cfgNoValid])]
    norm_num [cfgNoValid]
  · unfold SolveForVolume
    rw [if_neg (by norm_num [cfgTcBad]), if_neg (by norm_num [cfgTcBad]),
      if_pos (by norm_num [cfgTcBad] : cfgTcBad.Pc ≤ 0 ∨ cfgTcBad.Tc ≤ 0)]
  · unfold SolveForVolume
    rw [if_neg (by norm_num [cfgPcBad]), if_neg (by norm_num [cfgPcBad]),
      if_pos (by norm_num [cfgPcBad] : cfgPcBad.Pc ≤ 0 ∨ cfgPcBad.Tc ≤ 0)]

/-- Claim C3 (amended): SolveForVolume rejects invalid configurations
before invoking SolveCubic, checking in order T (temperature error), P
(pressure error), Pc or Tc (one shared critical-property error for both
fields), then R (gas-constant error).  SaturationPressure itself validates
nothing: at or above Tc it returns Pc unconditionally, and below Tc it
goes straight into the iteration from the Wilson guess, where invalid
fields surface only through SolveForVolume. -/
theorem validation_order (cfg : EOSCfg) :
    (cfg.T ≤ 0 → SolveForVolume cfg = .error .tempErr) ∧
    (0 < cfg.T → cfg.P ≤ 0 → SolveForVolume cfg = .error .pressErr) ∧
    (0 < cfg.T → 0 < cfg.P → (cfg.Pc ≤ 0 ∨ cfg.Tc ≤ 0) →
      SolveForVolume cfg = .error .criticalPropErr) ∧
    (0 < cfg.T → 0 < cfg.P → 0 < cfg.Pc → 0 < cfg.Tc → cfg.R ≤ 0 →
      SolveForVolume cfg = .error .universalConstErr) ∧
    (∀ T, cfg.Tc ≤ T → SaturationPressure cfg T = .ok cfg.Pc) ∧
    (∀ T, T < cfg.Tc →
      SaturationPressure cfg T = satLoop cfg T 100 (wilsonGuess cfg T)) := by
  refine ⟨?_, ?_, ?_, ?_, ?_, ?_⟩
  · intro h
    unfold SolveForVolume
    rw [if_pos h]
  · intro h1 h2
    unfold SolveForVolume
    rw [if_neg (not_le.mpr h1), if_pos h2]
  · intro h1 h2 h3
    unfold SolveForVolume
    rw [if_neg (not_le.mpr h1), if_neg (not_le.mpr h2), if_pos h3]
  · intro h1 h2 h3 h4 h5
    unfold SolveForVolume
    rw [if_neg (not_le.mpr h1), if_neg (not_le.mpr h2),
      if_neg (by push_neg; exact ⟨h3, h4⟩ : ¬(cfg.Pc ≤ 0 ∨ cfg.Tc ≤ 0)), if_pos h5]
  · intro T h
    unfold SaturationPressure
    rw [if_pos h]
  · intro T h
    unfold SaturationPressure
    rw [if_neg (not_le.mpr h)]

/-- Claim C3 witness: each branch of the amended validation statement at a
concrete configuration violating exactly that field, plus the two
SaturationPressure branches on the concrete configuration cfgTriple. -/
theorem validation_order_witness :
    SolveForVolume cfgTBad = .error .tempErr ∧
    SolveForVolume cfgPBad = .error .pressErr ∧
    SolveForVolume cfgPcBad = .error .criticalPropErr ∧
    SolveForVolume cfgRBad = .error .universalConstErr ∧
    SaturationPressure cfgTriple 10 = .ok cfgTriple.Pc ∧
    SaturationPressure cfgTriple 2 = satLoop cfgTriple 2 100 (wilsonGuess cfgTriple 2) :=
  ⟨(validation_order cfgTBad).1 (by norm_num [cfgTBad]),
   (validation_order cfgPBad).2.1 (by norm_num [cfgPBad]) (by norm_num [cfgPBad]),
   (validation_order cfgPcBad).2.2.1 (by norm_num [cfgPcBad]) (by norm_num [cfgPcBad])
     (by norm_num [cfgPcBad]),
   (validation_order cfgRBad).2.2.2.1 (by norm_num [cfgRBad]) (by norm_num [cfgRBad])
     (by norm_num [cfgRBad]) (by norm_num [cfgRBad]) (by norm_num [cfgRBad]),
   (validation_order cfgTriple).2.2.2.2.1 10 (by norm_num [cfgTriple]),
   (validation_order cfgTriple).2.2.2.2.2 2 (by norm_num [cfgTriple])⟩

/-- A cubic with leading coefficient 1 never takes the not-cubic error
branch. -/
theorem exists_ok_ite {γ : Type} (C : Prop) [Decidable C] (A B : γ) :
    ∃ r : γ, (if C then (Except.ok A : Except Err γ) else .ok B) = .ok r := by
  split_ifs <;> exact ⟨_, rfl⟩

/-- SolveCubic with leading coefficient 1 always succeeds. -/
theorem solveCubic_one_ok (b c d : ℝ) : ∃ rts, SolveCubic 1 b c d = .ok rts := by
  simp only [SolveCubic]
  rw [if_neg (one_ne_zero : ¬((1 : ℝ) = 0))]
  exact exists_ok_ite _ _ _

/-- Claim C9: for every validated configuration, SolveForVolume computes
b = Omega R Tc/Pc and a = Psi alpha R^2 Tc^2/Pc with alpha at Tr = T/Tc,
builds the cubic coefficients e = 1, f, g, h exactly as the specification
writes them with Vig = R Tc/Pc, delegates to SolveCubic, and returns a, b
and the three roots in the VolumeResult. -/
theorem solveForVolume_delegates_spec (cfg : EOSCfg)
    (hT : 0 < cfg.T) (hP : 0 < cfg.P) (hTc : 0 < cfg.Tc) (hPc : 0 < cfg.Pc)
    (hR : 0 < cfg.R) :
    volB cfg = (paramsOf cfg.Model).Omega * cfg.R * cfg.Tc / cfg.Pc ∧
    volA cfg = (paramsOf cfg.Model).Psi *
      alphaOf cfg.Model (cfg.T / cfg.Tc) cfg.Acentric * cfg.R ^ 2 * cfg.Tc ^ 2 / cfg.Pc ∧
    vIG cfg = cfg.R * cfg.Tc / cfg.Pc ∧
    coefF cfg = volB cfg * ((paramsOf cfg.Model).Sigma + (paramsOf cfg.Model).Epsilon - 1) -
      vIG cfg ∧
    coefG cfg = volB cfg * (((paramsOf cfg.Model).Epsilon * (paramsOf cfg.Model).Sigma -
        ((paramsOf cfg.Model).Sigma + (paramsOf cfg.Model).Epsilon)) * volB cfg -
      ((paramsOf cfg.Model).Sigma + (paramsOf cfg.Model).Epsilon) * vIG cfg) +
      volA cfg / cfg.P ∧
    coefH cfg = -((paramsOf cfg.Model).Epsilon * (paramsOf cfg.Model).Sigma) * volB cfg ^ 2 *
      (volB cfg + vIG cfg) - volA cfg * volB cfg / cfg.P ∧
    ∃ rts, SolveCubic 1 (coefF cfg) (coefG cfg) (coefH cfg) = .ok rts ∧
      SolveForVolume cfg = .ok ⟨volA cfg, volB cfg, rts⟩ := by
  refine ⟨by unfold volB calculateb; ring, by unfold volA calculatea; ring, rfl,
    by unfold coefF; ring, by unfold coefG; ring, by unfold coefH; ring, ?_⟩
  obtain ⟨rts, hrts⟩ := solveCubic_one_ok (coefF cfg) (coefG cfg) (coefH cfg)
  refine ⟨rts, hrts, ?_⟩
  unfold SolveForVolume
  rw [if_neg (not_le.mpr hT), if_neg (not_le.mpr hP),
    if_neg (by push_neg; exact ⟨hPc, hTc⟩ : ¬(cfg.Pc ≤ 0 ∨ cfg.Tc ≤ 0)),
    if_neg (not_le.mpr hR), hrts]

/-- Claim C9 witness: the delegation conclusion instantiated at the
concrete configuration cfgTriple. -/
theorem solveForVolume_delegates_spec_witness :
    ∃ rts, SolveCubic 1 (coefF cfgTriple) (coefG cfgTriple) (coefH cfgTriple) = .ok rts ∧
      SolveForVolume cfgTriple = .ok ⟨volA cfgTriple, volB cfgTriple, rts⟩ :=
  (solveForVolume_delegates_spec cfgTriple (by norm_num [cfgTriple])
    (by norm_num [cfgTriple]) (by norm_num [cfgTriple]) (by norm_num [cfgTriple])
    (by norm_num [cfgTriple])).2.2.2.2.2.2

/-- Claim C4: the four EOS model variants return exactly the tabulated
shape parameters and alpha functions: van der Waals alpha = 1 and
(0, 0, 1/8, 27/64); Redlich-Kwong alpha = 1/sqrt Tr and
(1, 0, 0.08664, 0.42728); Soave-RK alpha = (1 + m (1 - sqrt Tr))^2 with
m = 0.480 + 1.574 w - 0.716 w^2 and (1, 0, 0.08664, 0.42728);
Peng-Robinson alpha = (1 + m (1 - sqrt Tr))^2 with
m = 0.37464 + 1.54226 w - 0.26992 w^2 and
(1 + sqrt 2, 1 - sqrt 2, 0.07780, 0.45724). -/
theorem eos_model_parameters :
    (∀ tr w : ℝ, alphaOf .vdW tr w = 1) ∧
    paramsOf .vdW = ⟨0, 0, 1 / 8, 27 / 64⟩ ∧
    (∀ tr w : ℝ, alphaOf .rk tr w = 1 / Real.sqrt tr) ∧
    paramsOf .rk = ⟨1, 0, 0.08664, 0.42728⟩ ∧
    (∀ tr w : ℝ, alphaOf .srk tr w =
      (1 + (0.480 + 1.574 * w - 0.716 * w ^ 2) * (1 - Real.sqrt tr)) ^ 2) ∧
    paramsOf .srk = ⟨1, 0, 0.08664, 0.42728⟩ ∧
    (∀ tr w : ℝ, alphaOf .pr tr w =
      (1 + (0.37464 + 1.54226 * w - 0.26992 * w ^ 2) * (1 - Real.sqrt tr)) ^ 2) ∧
    paramsOf .pr = ⟨1 + Real.sqrt 2, 1 - Real.sqrt 2, 0.07780, 0.45724⟩ := by
  refine ⟨fun tr w => by norm_num [alphaOf], by norm_num [paramsOf], fun tr w => rfl, rfl,
    fun tr w => by simp only [alphaOf]; ring, rfl,
    fun tr w => by simp only [alphaOf]; ring, rfl⟩

/-- Claim C5: LogFugacity returns Z - 1 - ln(Z - B) plus a correction that
is -A/Z when the absolute difference of epsilon and sigma is below 1e-9
and the log-ratio form otherwise; in particular every van der Waals
configuration (sigma = epsilon = 0) takes the -A/Z branch. -/
theorem logFugacity_formula :
    (∀ (cfg : EOSCfg) (Z A B : ℝ),
      LogFugacity cfg Z A B = Z - 1 - Real.log (Z - B) +
        (if |(paramsOf cfg.Model).Epsilon - (paramsOf cfg.Model).Sigma| < 1e-9
          then -A / Z
          else (A / (B * ((paramsOf cfg.Model).Epsilon - (paramsOf cfg.Model).Sigma))) *
            Real.log ((Z + (paramsOf cfg.Model).Sigma * B) /
              (Z + (paramsOf cfg.Model).Epsilon * B)))) ∧
    (∀ (T P Tc Pc W R Z A B : ℝ),
      LogFugacity ⟨.vdW, T, P, Tc, Pc, W, R⟩ Z A B =
        Z - 1 - Real.log (Z - B) + -A / Z) := by
  constructor
  · intro cfg Z A B
    rfl
  · intro T P Tc Pc W R Z A B
    simp only [LogFugacity, paramsOf]
    rw [if_pos (by norm_num)]

/-- Claim C6: for every configuration and every temperature at or above
the critical temperature, SaturationPressure returns exactly Pc with no
error. -/
theorem saturation_supercritical_returns_pc (cfg : EOSCfg) (T : ℝ) (h : cfg.Tc ≤ T) :
    SaturationPressure cfg T = .ok cfg.Pc := by
  unfold SaturationPressure
  rw [if_pos h]

/-- Claim C6 witness: the concrete configuration cfgTriple has Tc = 8 and
SaturationPressure at T = 10 returns its Pc. -/
theorem saturation_supercritical_returns_pc_witness :
    cfgTriple.Tc ≤ 10 ∧ SaturationPressure cfgTriple 10 = .ok cfgTriple.Pc :=
  ⟨by norm_num [cfgTriple],
    saturation_supercritical_returns_pc cfgTriple 10 (by norm_num [cfgTriple])⟩

/-- Claim C10: Pressure validates neither cfg.P nor the volume argument:
for every configuration with positive T, Tc, Pc and R and every real
volume (including volumes at or below b and nonpositive volumes, and for
any sign of cfg.P) it returns a PressureResult with no error; at V = b
the first term is a division by zero whose (unphysical) value is
propagated in the result rather than reported as an error. -/
theorem pressure_no_validation (cfg : EOSCfg) (V : ℝ)
    (hT : 0 < cfg.T) (hTc : 0 < cfg.Tc) (hPc : 0 < cfg.Pc) (hR : 0 < cfg.R) :
    Pressure cfg V = .ok ⟨volA cfg, volB cfg,
      cfg.R * cfg.T / (V - volB cfg) -
        volA cfg / ((V + (paramsOf cfg.Model).Epsilon * volB cfg) *
          (V + (paramsOf cfg.Model).Sigma * volB cfg))⟩ := by
  unfold Pressure
  rw [if_neg (not_le.mpr hT),
    if_neg (by push_neg; exact ⟨hPc, hTc⟩ : ¬(cfg.Pc ≤ 0 ∨ cfg.Tc ≤ 0)),
    if_neg (not_le.mpr hR)]

/-- Claim C10 witness: the concrete configuration cfgTriple has b = 1 and
Pressure at the volume V = b = 1 still returns a result with no error. -/
theorem pressure_no_validation_witness :
    Pressure cfgTriple 1 = .ok ⟨volA cfgTriple, volB cfgTriple,
      cfgTriple.R * cfgTriple.T / (1 - volB cfgTriple) -
        volA cfgTriple / ((1 + (paramsOf cfgTriple.Model).Epsilon * volB cfgTriple) *
          (1 + (paramsOf cfgTriple.Model).Sigma * volB cfgTriple))⟩ :=
  pressure_no_validation cfgTriple 1 (by norm_num [cfgTriple]) (by norm_num [cfgTriple])
    (by norm_num [cfgTriple]) (by norm_num [cfgTriple])

/-- SolveForVolume only returns validation errors or the wrapped not-cubic
error, never a saturation-loop error. -/
theorem sfv_error_ne (cfg : EOSCfg) (e : Err) (he1 : e ≠ .tempErr) (he2 : e ≠ .pressErr)
    (he3 : e ≠ .criticalPropErr) (he4 : e ≠ .universalConstErr) (he5 : e ≠ .notCubicErr) :
    SolveForVolume cfg ≠ .error e := by
  intro h
  unfold SolveForVolume at h
  split_ifs at h
  · exact he1 (Except.error.inj h).symm
  · exact he2 (Except.error.inj h).symm
  · exact he3 (Except.error.inj h).symm
  · exact he4 (Except.error.inj h).symm
  · split at h
    · exact he5 (Except.error.inj h).symm
    · exact Except.noConfusion h

/-- SolveForVolume never reports the no-real-roots error. -/
theorem sfv_ne_noRoots (cfg : EOSCfg) : SolveForVolume cfg ≠ .error .noRealRootsErr :=
  sfv_error_ne cfg _ (by decide) (by decide) (by decide) (by decide) (by decide)

/-- One saturation step never fails with the did-not-converge error: that
error only arises from budget exhaustion. -/
theorem satStep_ne_fail_notConverged (cfg : EOSCfg) (T P : ℝ) :
    satStep cfg T P ≠ .fail .notConvergedErr := by
  intro h
  unfold satStep at h
  split at h
  · rename_i e heq
    have he : e = .notConvergedErr := StepRes.fail.inj h
    subst he
    exact sfv_error_ne _ _ (by decide) (by decide) (by decide) (by decide) (by decide) heq
  · split_ifs at h
    exact Err.noConfusion (StepRes.fail.inj h)

/-- A saturation step converges (returns done) exactly when the volume
solve succeeds with at least three clean roots, the compressibility guard
passes, and the fugacity difference is below 1e-8; the returned value is
the current trial pressure. -/
theorem satStep_done_iff (cfg : EOSCfg) (T P Q : ℝ) :
    satStep cfg T P = .done Q ↔ Q = P ∧
      ∃ vr, SolveForVolume (iterCfgAt cfg T P) = .ok vr ∧ 3 ≤ vr.Clean.length ∧
        ¬(satZl cfg T P vr ≤ satB cfg T P vr ∨ satZv cfg T P vr ≤ satB cfg T P vr) ∧
        |satPhil cfg T P vr - satPhiv cfg T P vr| < 1e-8 := by
  unfold satStep
  split
  · rename_i e heq
    constructor
    · intro h
      exact StepRes.noConfusion h
    · rintro ⟨_, vr, hvr, _⟩
      rw [heq] at hvr
      exact Except.noConfusion hvr
  · rename_i vr heq
    by_cases hlen : vr.Clean.length < 3
    · rw [if_pos hlen]
      constructor
      · intro h
        split_ifs at h
      · rintro ⟨_, vr2, hvr2, hlen2, _⟩
        rw [heq] at hvr2
        injection hvr2 with h2
        subst h2
        omega
    · rw [if_neg hlen]
      by_cases hguard : satZl cfg T P vr ≤ satB cfg T P vr ∨
          satZv cfg T P vr ≤ satB cfg T P vr
      · rw [if_pos hguard]
        constructor
        · intro h
          exact StepRes.noConfusion h
        · rintro ⟨_, vr2, hvr2, _, hguard2, _⟩
          rw [heq] at hvr2
          injection hvr2 with h2
          subst h2
          exact (hguard2 hguard).elim
      · rw [if_neg hguard]
        by_cases htol : |satPhil cfg T P vr - satPhiv cfg T P vr| < 1e-8
        · rw [if_pos htol]
          constructor
          · intro h
            exact ⟨(StepRes.done.inj h).symm, vr, heq, by omega, hguard, htol⟩
          · rintro ⟨rfl, _⟩
            rfl
        · rw [if_neg htol]
          constructor
          · intro h
            exact StepRes.noConfusion h
          · rintro ⟨_, vr2, hvr2, _, _, htol2⟩
            rw [heq] at hvr2
            injection hvr2 with h2
            subst h2
            exact (htol htol2).elim

/-- A done step returns the current trial pressure. -/
theorem satStep_done_payload (cfg : EOSCfg) (T P q : ℝ) (h : satStep cfg T P = .done q) :
    q = P :=
  ((satStep_done_iff cfg T P q).mp h).1

/-- A saturation step fails with the no-real-roots error exactly when the
volume solve succeeds and the cleaned root list is empty. -/
theorem satStep_fail_noRoots_iff (cfg : EOSCfg) (T P : ℝ) :
    satStep cfg T P = .fail .noRealRootsErr ↔
      ∃ vr, SolveForVolume (iterCfgAt cfg T P) = .ok vr ∧ vr.Clean = [] := by
  unfold satStep
  split
  · rename_i e heq
    constructor
    · intro h
      have he : e = .noRealRootsErr := StepRes.fail.inj h
      subst he
      exact absurd heq (sfv_ne_noRoots _)
    · rintro ⟨vr, hvr, _⟩
      rw [heq] at hvr
      exact Except.noConfusion hvr
  · rename_i vr heq
    by_cases hlen : vr.Clean.length < 3
    · rw [if_pos hlen]
      by_cases hzero : vr.Clean.length = 0
      · rw [if_pos hzero]
        constructor
        · intro _
          exact ⟨vr, heq, List.length_eq_zero.mp hzero⟩
        · intro _
          rfl
      · rw [if_neg hzero]
        constructor
        · intro h
          split_ifs at h
        · rintro ⟨vr2, hvr2, hnil⟩
          rw [heq] at hvr2
          injection hvr2 with h2
          subst h2
          exact (hzero (by rw [hnil]; rfl)).elim
    · rw [if_neg hlen]
      constructor
      · intro h
        split_ifs at h
      · rintro ⟨vr2, hvr2, hnil⟩
        rw [heq] at hvr2
        injection hvr2 with h2
        subst h2
        rw [hnil] at hlen
        simp at hlen

/-- The loop exhausts its budget (did-not-converge) exactly when n
continuing steps happen in a row. -/
theorem satLoop_notConverged_iff (cfg : EOSCfg) (T : ℝ) :
    ∀ (n : ℕ) (P0 : ℝ), satLoop cfg T n P0 = .error .notConvergedErr ↔
      ∃ Pn, satIter cfg T n P0 = some Pn := by
  intro n
  induction n with
  | zero =>
    intro P0
    simp [satLoop, satIter]
  | succ n ih =>
    intro P0
    cases h : satStep cfg T P0 with
    | fail e =>
      simp only [satLoop, satIter, h]
      constructor
      · intro hh
        have he : e = .notConvergedErr := Except.error.inj hh
        subst he
        exact absurd h (satStep_ne_fail_notConverged cfg T P0)
      · rintro ⟨Pn, hPn⟩
        exact Option.noConfusion hPn
    | done p =>
      simp only [satLoop, satIter, h]
      constructor
      · intro hh
        exact Except.noConfusion hh
      · rintro ⟨Pn, hPn⟩
        exact Option.noConfusion hPn
    | cont p =>
      simp only [satLoop, satIter, h]
      exact ih p

/-- The loop reports the no-real-roots error exactly when some reached
iterate steps to that failure. -/
theorem satLoop_noRoots_iff (cfg : EOSCfg) (T : ℝ) :
    ∀ (n : ℕ) (P0 : ℝ), satLoop cfg T n P0 = .error .noRealRootsErr ↔
      ∃ k, k < n ∧ ∃ Pk, satIter cfg T k P0 = some Pk ∧
        satStep cfg T Pk = .fail .noRealRootsErr := by
  intro n
  induction n with
  | zero =>
    intro P0
    simp only [satLoop]
    constructor
    · intro hh
      exact Err.noConfusion (Except.error.inj hh)
    · rintro ⟨k, hk, _⟩
      omega
  | succ n ih =>
    intro P0
    cases h : satStep cfg T P0 with
    | fail e =>
      simp only [satLoop, h]
      constructor
      · intro hh
        have he : e = .noRealRootsErr := Except.error.inj hh
        subst he
        exact ⟨0, Nat.succ_pos n, P0, rfl, h⟩
      · rintro ⟨k, hk, Pk, hPk, hstep⟩
        cases k with
        | zero =>
          simp only [satIter] at hPk
          have hp : P0 = Pk := Option.some.inj hPk
          subst hp
          rw [h] at hstep
          rw [StepRes.fail.inj hstep]
        | succ k =>
          rw [show satIter cfg T (k + 1) P0 = none by simp only [satIter, h]] at hPk
          exact Option.noConfusion hPk
    | done p =>
      simp only [satLoop, h]
      constructor
      · intro hh
        exact Except.noConfusion hh
      · rintro ⟨k, hk, Pk, hPk, hstep⟩
        cases k with
        | zero =>
          simp only [satIter] at hPk
          have hp : P0 = Pk := Option.some.inj hPk
          subst hp
          rw [h] at hstep
          exact StepRes.noConfusion hstep
        | succ k =>
          rw [show satIter cfg T (k + 1) P0 = none by simp only [satIter, h]] at hPk
          exact Option.noConfusion hPk
    | cont p =>
      simp only [satLoop, h]
      rw [ih p]
      constructor
      · rintro ⟨k, hk, Pk, hPk, hstep⟩
        refine ⟨k + 1, by omega, Pk, ?_, hstep⟩
        simp only [satIter, h]
        exact hPk
      · rintro ⟨k, hk, Pk, hPk, hstep⟩
        cases k with
        | zero =>
          simp only [satIter] at hPk
          have hp : P0 = Pk := Option.some.inj hPk
          subst hp
          rw [h] at hstep
          exact StepRes.noConfusion hstep
        | succ k =>
          rw [show satIter cfg T (k + 1) P0 = satIter cfg T k p by
            simp only [satIter, h]] at hPk
          exact ⟨k, by omega, Pk, hPk, hstep⟩

/-- The loop succeeds with value Q exactly when Q is a reached iterate at
which the step converges; together with satStep_done_iff this says the
returned value is the trial pressure at which the tolerance was met. -/
theorem satLoop_ok_iff (cfg : EOSCfg) (T : ℝ) :
    ∀ (n : ℕ) (P0 Q : ℝ), satLoop cfg T n P0 = .ok Q ↔
      ∃ k, k < n ∧ satIter cfg T k P0 = some Q ∧ satStep cfg T Q = .done Q := by
  intro n
  induction n with
  | zero =>
    intro P0 Q
    simp only [satLoop]
    constructor
    · intro hh
      exact Except.noConfusion hh
    · rintro ⟨k, hk, _⟩
      omega
  | succ n ih =>
    intro P0 Q
    cases h : satStep cfg T P0 with
    | fail e =>
      simp only [satLoop, h]
      constructor
      · intro hh
        exact Except.noConfusion hh
      · rintro ⟨k, hk, hPk, hstep⟩
        cases k with
        | zero =>
          simp only [satIter] at hPk
          have hp : P0 = Q := Option.some.inj hPk
          subst hp
          rw [h] at hstep
          exact StepRes.noConfusion hstep
        | succ k =>
          rw [show satIter cfg T (k + 1) P0 = none by simp only [satIter, h]] at hPk
          exact Option.noConfusion hPk
    | done p =>
      simp only [satLoop, h]
      have hp : p = P0 := satStep_done_payload cfg T P0 p h
      subst hp
      constructor
      · intro hh
        have hq : p = Q := Except.ok.inj hh
        subst hq
        exact ⟨0, Nat.succ_pos n, rfl, h⟩
      · rintro ⟨k, hk, hPk, hstep⟩
        cases k with
        | zero =>
          simp only [satIter] at hPk
          have hp2 : p = Q := Option.some.inj hPk
          rw [hp2]
        | succ k =>
          rw [show satIter cfg T (k + 1) p = none by simp only [satIter, h]] at hPk
          exact Option.noConfusion hPk
    | cont p =>
      simp only [satLoop, h]
      rw [ih p]
      constructor
      · rintro ⟨k, hk, hPk, hstep⟩
        refine ⟨k + 1, by omega, ?_, hstep⟩
        simp only [satIter, h]
        exact hPk
      · rintro ⟨k, hk, hPk, hstep⟩
        cases k with
        | zero =>
          simp only [satIter] at hPk
          have hp : P0 = Q := Option.some.inj hPk
          subst hp
          rw [h] at hstep
          exact StepRes.noConfusion hstep
        | succ k =>
          rw [show satIter cfg T (k + 1) P0 = satIter cfg T k p by
            simp only [satIter, h]] at hPk
          exact ⟨k, by omega, hPk, hstep⟩

/-- Claim C7: below Tc the call runs the loop with a budget of exactly 100
steps from the Wilson guess (and at or above Tc short-circuits to Pc); the
call fails with the did-not-converge error exactly when the budget is
exhausted by continuing steps, fails with the no-real-roots error exactly
when a reached iterate finds zero clean real roots, and succeeds exactly
when a reached iterate converges, returning that trial pressure; a step
converges exactly when the fugacity difference at the current trial
pressure is below 1e-8 (with three roots and the guard passed). -/
theorem saturation_loop_characterization (cfg : EOSCfg) (T : ℝ) :
    (∀ S, SaturationPressure cfg S =
      if cfg.Tc ≤ S then .ok cfg.Pc else satLoop cfg S 100 (wilsonGuess cfg S)) ∧
    (∀ n P0, satLoop cfg T n P0 = .error .notConvergedErr ↔
      ∃ Pn, satIter cfg T n P0 = some Pn) ∧
    (∀ n P0, satLoop cfg T n P0 = .error .noRealRootsErr ↔
      ∃ k, k < n ∧ ∃ Pk, satIter cfg T k P0 = some Pk ∧
        satStep cfg T Pk = .fail .noRealRootsErr) ∧
    (∀ n P0 Q, satLoop cfg T n P0 = .ok Q ↔
      ∃ k, k < n ∧ satIter cfg T k P0 = some Q ∧ satStep cfg T Q = .done Q) ∧
    (∀ P Q, satStep cfg T P = .done Q ↔ Q = P ∧
      ∃ vr, SolveForVolume (iterCfgAt cfg T P) = .ok vr ∧ 3 ≤ vr.Clean.length ∧
        ¬(satZl cfg T P vr ≤ satB cfg T P vr ∨ satZv cfg T P vr ≤ satB cfg T P vr) ∧
        |satPhil cfg T P vr - satPhiv cfg T P vr| < 1e-8) ∧
    (∀ P, satStep cfg T P = .fail .noRealRootsErr ↔
      ∃ vr, SolveForVolume (iterCfgAt cfg T P) = .ok vr ∧ vr.Clean = []) :=
  ⟨fun _ => rfl, satLoop_notConverged_iff cfg T, satLoop_noRoots_iff cfg T,
    satLoop_ok_iff cfg T, satStep_done_iff cfg T, satStep_fail_noRoots_iff cfg T⟩

/-- The cleaned root list is always sorted ascending, so its first element
is the smallest clean root and its last the largest. -/
theorem clean_sorted (vr : VolumeResult) : List.Sorted (· ≤ ·) vr.Clean :=
  List.sorted_insertionSort _ _

/-- Claim C8: a continuing saturation iteration multiplies the trial
pressure by a factor in the closed band [0.8, 1.2]: 0.9 when fewer than
three clean roots are found and the smallest (the list is sorted, so the
head) is below 2 b, 1.1 when fewer than three roots are found otherwise,
0.95 when a compressibility factor fails the guard, and otherwise the
fugacity ratio exp(phil - phiv) clamped to [0.8, 1.2]. -/
theorem satStep_cont_update_factor (cfg : EOSCfg) (T P Q : ℝ)
    (h : satStep cfg T P = .cont Q) :
    ∃ f, Q = P * f ∧ 0.8 ≤ f ∧ f ≤ 1.2 ∧
      ∃ vr, SolveForVolume (iterCfgAt cfg T P) = .ok vr ∧
        List.Sorted (· ≤ ·) vr.Clean ∧
        ((vr.Clean.length < 3 ∧ vr.Clean.head! < 2 * vr.B ∧ f = 0.9) ∨
         (vr.Clean.length < 3 ∧ ¬vr.Clean.head! < 2 * vr.B ∧ f = 1.1) ∨
         (3 ≤ vr.Clean.length ∧ (satZl cfg T P vr ≤ satB cfg T P vr ∨
            satZv cfg T P vr ≤ satB cfg T P vr) ∧ f = 0.95) ∨
         (3 ≤ vr.Clean.length ∧
            ¬(satZl cfg T P vr ≤ satB cfg T P vr ∨
              satZv cfg T P vr ≤ satB cfg T P vr) ∧
            ¬|satPhil cfg T P vr - satPhiv cfg T P vr| < 1e-8 ∧
            f = (if Real.exp (satPhil cfg T P vr - satPhiv cfg T P vr) > 1.2 then 1.2
              else if Real.exp (satPhil cfg T P vr - satPhiv cfg T P vr) < 0.8 then 0.8
              else Real.exp (satPhil cfg T P vr - satPhiv cfg T P vr)))) := by
  unfold satStep at h
  split at h
  · exact StepRes.noConfusion h
  · rename_i vr heq
    by_cases hlen : vr.Clean.length < 3
    · rw [if_pos hlen] at h
      by_cases hzero : vr.Clean.length = 0
      · rw [if_pos hzero] at h
        exact StepRes.noConfusion h
      · rw [if_neg hzero] at h
        by_cases hhead : vr.Clean.head! < 2 * vr.B
        · rw [if_pos hhead] at h
          exact ⟨0.9, (StepRes.cont.inj h).symm, by norm_num, by norm_num, vr, heq,
            clean_sorted vr, Or.inl ⟨hlen, hhead, rfl⟩⟩
        · rw [if_neg hhead] at h
          exact ⟨1.1, (StepRes.cont.inj h).symm, by norm_num, by norm_num, vr, heq,
            clean_sorted vr, Or.inr (Or.inl ⟨hlen, hhead, rfl⟩)⟩
    · rw [if_neg hlen] at h
      by_cases hguard : satZl cfg T P vr ≤ satB cfg T P vr ∨
          satZv cfg T P vr ≤ satB cfg T P vr
      · rw [if_pos hguard] at h
        exact ⟨0.95, (StepRes.cont.inj h).symm, by norm_num, by norm_num, vr, heq,
          clean_sorted vr, Or.inr (Or.inr (Or.inl ⟨by omega, hguard, rfl⟩))⟩
      · rw [if_neg hguard] at h
        by_cases htol : |satPhil cfg T P vr - satPhiv cfg T P vr| < 1e-8
        · rw [if_pos htol] at h
          exact StepRes.noConfusion h
        · rw [if_neg htol] at h
          refine ⟨(if Real.exp (satPhil cfg T P vr - satPhiv cfg T P vr) > 1.2 then 1.2
              else if Real.exp (satPhil cfg T P vr - satPhiv cfg T P vr) < 0.8 then 0.8
              else Real.exp (satPhil cfg T P vr - satPhiv cfg T P vr)),
            (StepRes.cont.inj h).symm, ?_, ?_, vr, heq, clean_sorted vr,
            Or.inr (Or.inr (Or.inr ⟨by omega, hguard, htol, rfl⟩))⟩
          · split_ifs with h1 h2
            · norm_num
            · norm_num
            · exact not_lt.mp h2
          · split_ifs with h1 h2
            · norm_num
            · norm_num
            · exact not_lt.mp h1

/-- Evaluation of SolveCubic on the one-real-root cubic of cfgOneRoot. -/
theorem solveCubic_oneroot_eval : SolveCubic 1 (-27/4) (147/16) (-441/64) =
    .ok (⟨21/4, 0⟩, ⟨3/4, Real.sqrt 3 / 2⟩, ⟨3/4, -(Real.sqrt 3 / 2)⟩) := by
  have hs : Real.sqrt (49/4 : ℝ) = 7/2 := sqrt_eval (by norm_num) (by norm_num)
  have h8 : (8 : ℂ) ^ ((1 : ℂ)/3) = 2 := by
    have h := cpow_third_ofReal_nonneg (by norm_num : (0:ℝ) ≤ 8)
    rw [show (8:ℝ) ^ ((1:ℝ)/3) = 2 by
      rw [show (8:ℝ) = 2 ^ (3:ℕ) by norm_num,
        rpow_third_cube (by norm_num : (0:ℝ) ≤ 2)]] at h
    simpa using h
  unfold SolveCubic
  rw [if_neg (one_ne_zero : ¬((1 : ℝ) = 0))]
  norm_num [hs, h8]
  refine ⟨?_, ?_, ?_⟩ <;> apply Complex.ext <;>
    simp [Complex.mul_re, Complex.mul_im] <;> ring_nf

/-- Coefficient evaluation for cfgOneRoot. -/
theorem cfgOneRoot_coefs : volA cfgOneRoot = 243/16 ∧ volB cfgOneRoot = 3/4 ∧
    coefF cfgOneRoot = -27/4 ∧ coefG cfgOneRoot = 147/16 ∧
    coefH cfgOneRoot = -441/64 := by
  refine ⟨?_, ?_, ?_, ?_, ?_⟩ <;>
    norm_num [volA, volB, coefF, coefG, coefH, vIG, calculatea, calculateb,
      alphaOf, paramsOf, cfgOneRoot]

/-- SolveForVolume on cfgOneRoot: one real root 21/4 and a complex pair. -/
theorem sfv_cfgOneRoot : SolveForVolume cfgOneRoot = .ok ⟨243/16, 3/4,
    (⟨21/4, 0⟩, ⟨3/4, Real.sqrt 3 / 2⟩, ⟨3/4, -(Real.sqrt 3 / 2)⟩)⟩ := by
  obtain ⟨hA, hB, hF, hG, hH⟩ := cfgOneRoot_coefs
  unfold SolveForVolume
  rw [if_neg (by norm_num [cfgOneRoot]), if_neg (by norm_num [cfgOneRoot]),
    if_neg (by norm_num [cfgOneRoot]), if_neg (by norm_num [cfgOneRoot]),
    hF, hG, hH, solveCubic_oneroot_eval, hA, hB]

/-- The cleaned root list of the cfgOneRoot volume result is the single
real root. -/
theorem clean_cfgOneRoot : (VolumeResult.mk (243/16) (3/4) (⟨21/4, 0⟩,
    ⟨3/4, Real.sqrt 3 / 2⟩, ⟨3/4, -(Real.sqrt 3 / 2)⟩)).Clean = [21/4] := by
  have hsge : (1 : ℝ) ≤ Real.sqrt 3 := (Real.le_sqrt (by norm_num) (by norm_num)).mpr
    (by norm_num)
  have h1 : ¬(|Real.sqrt 3 / 2| < 1 / 1000000000) := by
    rw [abs_of_nonneg (by positivity : (0 : ℝ) ≤ Real.sqrt 3 / 2)]
    intro hcon
    linarith
  unfold VolumeResult.Clean
  norm_num [cleanFilter, h1, List.insertionSort, List.orderedInsert]

/-- The saturation step at cfgOneRoot with its own T and P continues with
the 1.1 vapor-like heuristic: one clean root 21/4, which is not below
2 b = 3/2. -/
theorem satStep_cfgOneRoot : satStep cfgOneRoot 3 (81/49) =
    .cont ((81 : ℝ)/49 * 1.1) := by
  have hiter : iterCfgAt cfgOneRoot 3 (81/49) = cfgOneRoot := rfl
  unfold satStep
  rw [hiter, sfv_cfgOneRoot]
  norm_num [clean_cfgOneRoot]

/-- Claim C8 witness: the factor statement instantiated at the concrete
continuing step of cfgOneRoot. -/
theorem satStep_cont_update_factor_witness :
    ∃ f, (81 : ℝ)/49 * 1.1 = 81/49 * f ∧ 0.8 ≤ f ∧ f ≤ 1.2 ∧
      ∃ vr, SolveForVolume (iterCfgAt cfgOneRoot 3 (81/49)) = .ok vr ∧
        List.Sorted (· ≤ ·) vr.Clean ∧
        ((vr.Clean.length < 3 ∧ vr.Clean.head! < 2 * vr.B ∧ f = 0.9) ∨
         (vr.Clean.length < 3 ∧ ¬vr.Clean.head! < 2 * vr.B ∧ f = 1.1) ∨
         (3 ≤ vr.Clean.length ∧ (satZl cfgOneRoot 3 (81/49) vr ≤ satB cfgOneRoot 3 (81/49) vr ∨
            satZv cfgOneRoot 3 (81/49) vr ≤ satB cfgOneRoot 3 (81/49) vr) ∧ f = 0.95) ∨
         (3 ≤ vr.Clean.length ∧
            ¬(satZl cfgOneRoot 3 (81/49) vr ≤ satB cfgOneRoot 3 (81/49) vr ∨
              satZv cfgOneRoot 3 (81/49) vr ≤ satB cfgOneRoot 3 (81/49) vr) ∧
            ¬|satPhil cfgOneRoot 3 (81/49) vr - satPhiv cfgOneRoot 3 (81/49) vr| < 1e-8 ∧
            f = (if Real.exp (satPhil cfgOneRoot 3 (81/49) vr -
                  satPhiv cfgOneRoot 3 (81/49) vr) > 1.2 then 1.2
              else if Real.exp (satPhil cfgOneRoot 3 (81/49) vr -
                  satPhiv cfgOneRoot 3 (81/49) vr) < 0.8 then 0.8
              else Real.exp (satPhil cfgOneRoot 3 (81/49) vr -
                satPhiv cfgOneRoot 3 (81/49) vr)))) :=
  satStep_cont_update_factor cfgOneRoot 3 (81/49) ((81 : ℝ)/49 * 1.1) satStep_cfgOneRoot

end ZFactor
